import Mathlib

/-!
Shallow embedding of the smart-factory-dashboard service worker and dashboard
logic (src/sw.js).  Statuses, ids, urls and responses are strings, sensor
metrics and timestamps are rationals (timestamps in milliseconds since the
epoch).  Scene-graph data (Three.js groups, meshes, lights) carries no
state-engine content and is omitted from the records.
-/

/-- Machine record as stored in `this.machines[id]` by `createMachine`
(src/sw.js lines 604-690): identity, status and the live metrics
`temperature`, `vibration`, `efficiency`, plus the `lastMaintenance`
timestamp used by the predictive engine.  The purely visual fields
(`group`, `body`, `statusLight`, `position`, `nextMaintenance`) are not
read by any state-engine code path and are omitted. -/
structure Machine where
  id : String
  name : String
  status : String
  temperature : ℚ
  vibration : ℚ
  efficiency : ℚ
  lastMaintenance : ℚ
  deriving DecidableEq

/-- One entry of the `machinesConfig` array handed to `createProductionLine`
(src/sw.js lines 428-449): `{ id, name, type, status }`. -/
structure MachineConfig where
  id : String
  name : String
  type : String
  status : String
  deriving DecidableEq

/-- Production-line record stored in `this.productionLines[lineId]`
(src/sw.js lines 493-501): id, name, derived status, ordered member
machine ids, colour tag and z position. -/
structure ProductionLine where
  id : String
  name : String
  status : String
  machines : List String
  color : String
  position : ℚ
  deriving DecidableEq

/-- The factory state: `this.machines` and `this.productionLines`.
JavaScript objects keyed by id are modelled as lists of records in
insertion order, with property assignment replacing an existing entry
with the same id. -/
structure Store where
  machines : List Machine
  productionLines : List ProductionLine
  deriving DecidableEq

/-- Decoded WebSocket frame as consumed by `handleRealtimeData`
(src/sw.js lines 791-806).  `type`, `machineId`, `status` and `message`
are strings; the metric fields are optional numbers (`none` models an
absent JSON field). -/
structure RealtimeData where
  type : String
  machineId : String
  status : String
  temperature : Option ℚ
  vibration : Option ℚ
  efficiency : Option ℚ
  message : String
  deriving DecidableEq

/-- Lookup `this.machines[id]`: the machine record with the given id, if any. -/
def findMachine (s : Store) (id : String) : Option Machine :=
  s.machines.find? (fun m => m.id == id)

/-- The JavaScript expression `x || y` for an optional number `x`:
an absent field or the falsy number `0` yields `y`, any other number is
kept.  (`NaN`, the only other falsy number, is not representable in ℚ.) -/
def jsOr (x : Option ℚ) (y : ℚ) : ℚ :=
  match x with
  | none => y
  | some v => if v = 0 then y else v

/-- Body of `calculateLineStatus` (src/sw.js lines 505-520) over the list
`statuses = machinesConfig.map(m => m.status)`: any `offline` or
`maintenance` member stops the line, otherwise all-`running` means
`running`, otherwise `warning`. -/
def lineStatusOfStatuses (statuses : List String) : String :=
  if statuses.contains "offline" || statuses.contains "maintenance" then "stopped"
  else if statuses.all (fun s => s == "running") then "running"
  else "warning"

/-- `calculateLineStatus(machinesConfig)` (src/sw.js lines 505-520):
maps the configs to their statuses and applies the aggregation rule. -/
def calculateLineStatus (machinesConfig : List MachineConfig) : String :=
  lineStatusOfStatuses (machinesConfig.map MachineConfig.status)

/-- Modelled from the spec: the three-rule total-precedence aggregation
function of spec §4.3 — (1) if any member status is `offline` or
`maintenance` the line is `stopped`; (2) else if every member status is
`running` the line is `running`; (3) else the line is `warning`.  Written
from the spec's words, to be compared with `calculateLineStatus`. -/
def specLineStatus (statuses : List String) : String :=
  if statuses.any (fun s => s == "offline" || s == "maintenance") then "stopped"
  else if statuses.all (fun s => s == "running") then "running"
  else "warning"

/-- JavaScript keyed assignment `this.machines[m.id] = m`: replace the
entry with the same id if present, otherwise append. -/
def storeMachine (l : List Machine) (m : Machine) : List Machine :=
  if l.any (fun x => x.id == m.id) then
    l.map (fun x => if x.id == m.id then m else x)
  else l ++ [m]

/-- JavaScript keyed assignment `this.productionLines[p.id] = p`. -/
def storeLine (l : List ProductionLine) (p : ProductionLine) : List ProductionLine :=
  if l.any (fun x => x.id == p.id) then
    l.map (fun x => if x.id == p.id then p else x)
  else l ++ [p]

/-- The machine record built by `createMachine` for one line member
(src/sw.js lines 471-487 and 671-684).  `machineStatus` is the cascaded
status computed by `createProductionLine`; the `Math.random()` draws for
the initial metrics and the `lastMaintenance` timestamp are supplied by
the oracle `draws` (temperature, vibration, efficiency, lastMaintenance). -/
def machineOfConfig (machineStatus : String) (draws : String → ℚ × ℚ × ℚ × ℚ)
    (cfg : MachineConfig) : Machine :=
  { id := cfg.id
    name := cfg.name
    status := machineStatus
    temperature := (draws cfg.id).1
    vibration := (draws cfg.id).2.1
    efficiency := (draws cfg.id).2.2.1
    lastMaintenance := (draws cfg.id).2.2.2 }

/-- `createProductionLine(lineId, lineName, machinesConfig, zPosition,
lineColor)` (src/sw.js lines 461-502): computes the aggregated line
status, stores each member machine with status
`lineStatus === 'stopped' ? 'stopped' : config.status`, and records the
line (id, name, status, member ids, colour, position). -/
def createProductionLine (s : Store) (lineId lineName : String)
    (machinesConfig : List MachineConfig) (zPosition : ℚ) (lineColor : String)
    (draws : String → ℚ × ℚ × ℚ × ℚ) : Store :=
  let lineStatus := calculateLineStatus machinesConfig
  { machines :=
      machinesConfig.foldl
        (fun acc cfg =>
          let machineStatus := if lineStatus == "stopped" then "stopped" else cfg.status
          storeMachine acc (machineOfConfig machineStatus draws cfg))
        s.machines
    productionLines :=
      storeLine s.productionLines
        { id := lineId
          name := lineName
          status := lineStatus
          machines := machinesConfig.map MachineConfig.id
          color := lineColor
          position := zPosition } }

/-- `handleRealtimeData(data)` (src/sw.js lines 791-806): a
`machineStatus` event whose `machineId` is present overwrites the
machine's `status` and applies `data.x || machine.x` to each metric;
every other event leaves the store untouched (an `alert` event only
calls the UI-side `showAlert`).  Totality of this function is the
embedding of `never throws`. -/
def handleRealtimeData (s : Store) (data : RealtimeData) : Store :=
  if data.type == "machineStatus" && s.machines.any (fun m => m.id == data.machineId) then
    { s with machines :=
        s.machines.map (fun m =>
          if m.id == data.machineId then
            { m with status := data.status
                     temperature := jsOr data.temperature m.temperature
                     vibration := jsOr data.vibration m.vibration
                     efficiency := jsOr data.efficiency m.efficiency }
          else m) }
  else s

/-- The statuses of a line's member machines as currently stored
(members missing from the store contribute nothing). -/
def lineMemberStatuses (s : Store) (l : ProductionLine) : List String :=
  l.machines.filterMap (fun id => (findMachine s id).map Machine.status)

/-- Whether every stored line's derived status equals the aggregation rule
evaluated fresh on its current member statuses (spec §3 invariant). -/
def lineConsistent (s : Store) : Bool :=
  s.productionLines.all (fun l => l.status == lineStatusOfStatuses (lineMemberStatuses s l))

/-- Local `tempRisk` of `calculatePredictiveMaintenance` (src/sw.js line
1077): `Math.max(0, (temperature - 75) / 25)` — risk above 75 °C. -/
def tempRisk (temperature : ℚ) : ℚ :=
  max 0 ((temperature - 75) / 25)

/-- Local `vibrationRisk` (src/sw.js line 1078): `vibration / 10`. -/
def vibrationRisk (vibration : ℚ) : ℚ :=
  vibration / 10

/-- Local `efficiencyRisk` (src/sw.js line 1079):
`Math.max(0, (85 - efficiency) / 20)` — risk below 85 %. -/
def efficiencyRisk (efficiency : ℚ) : ℚ :=
  max 0 ((85 - efficiency) / 20)

/-- Local `timeRisk` (src/sw.js line 1080):
`Math.min(1, runTime / (30 * 24 * 60 * 60 * 1000))` — milliseconds since
the last maintenance against a 30-day horizon. -/
def timeRisk (runTime : ℚ) : ℚ :=
  min 1 (runTime / (30 * 24 * 60 * 60 * 1000))

/-- Local `overallRisk` (src/sw.js line 1082): the unweighted arithmetic
mean of the four components. -/
def overallRisk (temperature vibration efficiency runTime : ℚ) : ℚ :=
  (tempRisk temperature + vibrationRisk vibration + efficiencyRisk efficiency
    + timeRisk runTime) / 4

/-- JavaScript `Math.round`: round half towards positive infinity. -/
def jsRound (q : ℚ) : ℤ :=
  ⌊q + 1 / 2⌋

/-- `getMaintenanceRecommendation(riskScore, daysToMaintenance)`
(src/sw.js lines 1098-1124), reduced to the returned priority tier
(the action text and colour are determined by the tier). -/
def getMaintenanceRecommendation (riskScore daysToMaintenance : ℚ) : String :=
  if riskScore > 8 / 10 then "CRITICAL"
  else if riskScore > 6 / 10 then "HIGH"
  else if daysToMaintenance ≤ 2 then "MEDIUM"
  else "LOW"

/-- Result object of `calculatePredictiveMaintenance` (src/sw.js lines
1088-1094).  The `factors` field (a copy of the raw inputs plus an
unused `Math.random()` score that feeds no computed output) is omitted. -/
structure RiskAssessment where
  riskScore : ℚ
  daysToMaintenance : ℤ
  predictedMaintenanceDate : ℚ
  recommendation : String
  deriving DecidableEq

/-- `calculatePredictiveMaintenance(machineId)` (src/sw.js lines
1063-1095) with `Date.now()` passed explicitly as `now`: `null` for an
unknown machine, otherwise the risk components, their mean, the
day window `Math.max(0, 14 - overallRisk * 14)` (returned rounded via
`Math.round`) and the predicted date `now + daysToMaintenance` in days
(built from the unrounded value). -/
def calculatePredictiveMaintenance (s : Store) (machineId : String) (now : ℚ) :
    Option RiskAssessment :=
  match findMachine s machineId with
  | none => none
  | some machine =>
    let runTime := now - machine.lastMaintenance
    let risk := overallRisk machine.temperature machine.vibration machine.efficiency runTime
    let daysToMaintenance := max 0 (14 - risk * 14)
    some { riskScore := risk
           daysToMaintenance := jsRound daysToMaintenance
           predictedMaintenanceDate := now + daysToMaintenance * (24 * 60 * 60 * 1000)
           recommendation := getMaintenanceRecommendation risk daysToMaintenance }

/- ===================== cache resilience layer ===================== -/

/-- `CACHE_NAME` (src/sw.js line 1): the active cache epoch name. -/
def CACHE_NAME : String := "smart-factory-v1.2"

/-- `urlsToCache` (src/sw.js lines 2-8): the install manifest. -/
def urlsToCache : List String :=
  ["/", "/index.html", "/manifest.json",
   "https://cdnjs.cloudflare.com/ajax/libs/font-awesome/6.0.0/css/all.min.css"]

/-- The browser `CacheStorage`: named caches in creation order, each a
list of (request url, stored response body) entries in insertion order. -/
abbrev CacheStorage := List (String × List (String × String))

/-- `caches.open(name)`: returns the cache of that name, creating an
empty one if absent.  Modelled on the storage as ensure-present. -/
def cachesOpen (cs : CacheStorage) (name : String) : CacheStorage :=
  if cs.any (fun c => c.1 == name) then cs else cs ++ [(name, [])]

/-- `Cache.put` on one cache's entry list: replace the entry for the url
if present, otherwise append it (an entry is written whole or not at all). -/
def cachePutEntry (entries : List (String × String)) (url resp : String) :
    List (String × String) :=
  if entries.any (fun p => p.1 == url) then
    entries.map (fun p => if p.1 == url then (url, resp) else p)
  else entries ++ [(url, resp)]

/-- `cache.put(request, response)` addressed through the storage by the
cache's name. -/
def cachePut (cs : CacheStorage) (name url resp : String) : CacheStorage :=
  cs.map (fun c => if c.1 == name then (c.1, cachePutEntry c.2 url resp) else c)

/-- `cache.addAll(urls)` (src/sw.js line 17): fetch and store every
manifest url into the named cache.  `fetchResp` is the network oracle
giving the response body for each url (the claim concerns a successful
install, so every fetch yields a response). -/
def cacheAddAll (cs : CacheStorage) (name : String) (urls : List String)
    (fetchResp : String → String) : CacheStorage :=
  urls.foldl (fun acc url => cachePut acc name url (fetchResp url)) cs

/-- The `install` event listener (src/sw.js lines 11-24):
`caches.open(CACHE_NAME).then(cache => cache.addAll(urlsToCache))`. -/
def installEvent (cs : CacheStorage) (fetchResp : String → String) : CacheStorage :=
  cacheAddAll (cachesOpen cs CACHE_NAME) CACHE_NAME urlsToCache fetchResp

/-- The `activate` event listener (src/sw.js lines 27-44): delete every
cache whose name differs from `CACHE_NAME`. -/
def activateEvent (cs : CacheStorage) : CacheStorage :=
  cs.filter (fun c => c.1 == CACHE_NAME)

/-- `caches.match(url)`: the first stored response for the url across
the caches, without touching the network. -/
def cachesMatch (cs : CacheStorage) (url : String) : Option String :=
  cs.findSome? (fun c => c.2.lookup url)

/- ===================== telemetry channel ===================== -/

/-- Observable state of the reconnecting WebSocket channel:
whether an `onclose`-scheduled reconnect timer is pending, how many
times `setupSocketConnection` (i.e. `new WebSocket(...)`, the connect)
has run, and whether `dispose` has been called. -/
structure ChannelState where
  reconnectPending : Bool
  connectCalls : Nat
  disposed : Bool
  deriving DecidableEq

/-- Events driving the channel model: the platform firing the socket's
`onclose` callback, a pending 5-second reconnect timer firing, and the
application calling `dispose()`. -/
inductive ChannelEv where
  | socketClosed
  | reconnectTimerFire
  | disposeCall
  deriving DecidableEq

/-- The `socket.onclose` handler (src/sw.js lines 776-780): schedules
`setTimeout(() => this.setupSocketConnection(), 5000)` unconditionally —
it does not consult `disposed` and the timer id is never stored. -/
def oncloseHandler (s : ChannelState) : ChannelState :=
  { s with reconnectPending := true }

/-- A pending reconnect timer fires: the callback runs
`setupSocketConnection()`, i.e. a connect (src/sw.js lines 757-788).
Nothing in the callback checks whether the channel was disposed. -/
def reconnectTimerFired (s : ChannelState) : ChannelState :=
  if s.reconnectPending then
    { s with reconnectPending := false, connectCalls := s.connectCalls + 1 }
  else s

/-- `dispose()` (src/sw.js lines 1000-1014): cancels the animation frame
and calls `this.socket.close()` (the platform then fires `onclose` as a
separate `socketClosed` event); no `clearTimeout` of any reconnect timer
occurs, so `reconnectPending` is untouched. -/
def disposeChannel (s : ChannelState) : ChannelState :=
  { s with disposed := true }

/-- One event-loop turn of the channel model. -/
def channelStep (s : ChannelState) : ChannelEv → ChannelState
  | ChannelEv.socketClosed => oncloseHandler s
  | ChannelEv.reconnectTimerFire => reconnectTimerFired s
  | ChannelEv.disposeCall => disposeChannel s

/-- Run a sequence of channel events. -/
def channelRun (s : ChannelState) (evs : List ChannelEv) : ChannelState :=
  evs.foldl channelStep s

/-- Channel state right after `init` ran `setupSocketConnection()` once
(src/sw.js line 233): one connect so far, no pending timer. -/
def channelInit : ChannelState :=
  { reconnectPending := false, connectCalls := 1, disposed := false }

/- ===================== concrete example inputs ===================== -/

/-- Metric oracle for the concrete examples: every machine starts with
temperature 60 °C, vibration 2 Hz, efficiency 90 %, last maintenance at
timestamp 0. -/
def demoDraws : String → ℚ × ℚ × ℚ × ℚ := fun _ => (60, 2, 90, 0)

/-- The store before any line is created. -/
def emptyStore : Store := { machines := [], productionLines := [] }

/-- A store holding one production line `A` with a single `running`
member machine `M1`, built through `createProductionLine`. -/
def lineAStore : Store :=
  createProductionLine emptyStore "A" "Line A"
    [{ id := "M1", name := "Machine 1", type := "cnc", status := "running" }]
    (-6) "red" demoDraws

/-- A `machineStatus` event taking machine `M1` offline, with no metric
fields. -/
def offlineEv : RealtimeData :=
  { type := "machineStatus", machineId := "M1", status := "offline",
    temperature := none, vibration := none, efficiency := none, message := "" }

/-- A direct store with a single machine `M1` (status `running`,
temperature 50, vibration 2, efficiency 90, last maintenance 0). -/
def singleMachineStore : Store :=
  { machines := [{ id := "M1", name := "Machine 1", status := "running",
                   temperature := 50, vibration := 2, efficiency := 90,
                   lastMaintenance := 0 }],
    productionLines := [] }

/-- An event of an unrecognized type. -/
def bogusTypeEv : RealtimeData :=
  { type := "telemetry", machineId := "M1", status := "running",
    temperature := some 70, vibration := none, efficiency := none, message := "" }

/- ===================== helper lemmas ===================== -/

theorem beq_string_comm (a b : String) : (a == b) = (b == a) := by
  by_cases h : a = b
  · simp [h]
  · simp [h, Ne.symm h]

theorem contains_pair_eq_any (a b : String) (l : List String) :
    (l.contains a || l.contains b) = l.any (fun s => s == a || s == b) := by
  induction l with
  | nil => rfl
  | cons x t ih =>
    simp only [List.contains_cons, List.any_cons] at *
    rw [← ih, beq_string_comm x a, beq_string_comm x b]
    cases a == x <;> cases b == x <;> cases t.contains a <;> cases t.contains b <;> rfl

/- ===================== C1 ===================== -/

/-- C1: the line-status aggregation function `calculateLineStatus` is
exactly the spec's three-rule total-precedence function: for every list
of member machine configurations, its result coincides with the rule
"any `offline`/`maintenance` member gives `stopped`; else all `running`
gives `running`; else `warning`" evaluated on the member statuses. -/
theorem c1_aggregation_matches_spec (machinesConfig : List MachineConfig) :
    calculateLineStatus machinesConfig =
      specLineStatus (machinesConfig.map MachineConfig.status) := by
  unfold calculateLineStatus lineStatusOfStatuses specLineStatus
  rw [contains_pair_eq_any]

/- ===================== C2 ===================== -/

/-- C2 counterexample: the freshly created line `A` is consistent with
the aggregation rule, but after the `machineStatus` event that takes its
only member `M1` offline, the stored line status is still `running`
while the rule evaluated fresh on the current member statuses gives
`stopped` — a stale derived line status is observably retained. -/
theorem c2_counterexample :
    lineConsistent lineAStore = true ∧
      lineConsistent (handleRealtimeData lineAStore offlineEv) = false := by
  decide

/-- C2 amended: `handleRealtimeData` never touches the production lines
at all — a machine-status event overwrites the member machine's record
but leaves every line (in particular its derived status, computed once
at construction) unchanged, so the derived status can go stale. -/
theorem c2_amended_lines_never_recomputed (s : Store) (data : RealtimeData) :
    (handleRealtimeData s data).productionLines = s.productionLines := by
  unfold handleRealtimeData
  split <;> rfl

/- ===================== C6 ===================== -/

/-- C6: the predictive-maintenance risk mean `overallRisk` is monotone in
each input — nondecreasing in temperature, vibration and time since last
maintenance (`runTime`), and nonincreasing in efficiency. -/
theorem c6_overall_risk_monotone (t t' v v' e e' rt rt' : ℚ) :
    (t ≤ t' → overallRisk t v e rt ≤ overallRisk t' v e rt) ∧
    (v ≤ v' → overallRisk t v e rt ≤ overallRisk t v' e rt) ∧
    (rt ≤ rt' → overallRisk t v e rt ≤ overallRisk t v e rt') ∧
    (e ≤ e' → overallRisk t v e' rt ≤ overallRisk t v e rt) := by
  refine ⟨fun h => ?_, fun h => ?_, fun h => ?_, fun h => ?_⟩
  · have h1 : tempRisk t ≤ tempRisk t' := by
      unfold tempRisk
      exact max_le_max le_rfl (by linarith)
    unfold overallRisk
    linarith
  · have h1 : vibrationRisk v ≤ vibrationRisk v' := by
      unfold vibrationRisk
      linarith
    unfold overallRisk
    linarith
  · have h1 : timeRisk rt ≤ timeRisk rt' := by
      unfold timeRisk
      exact min_le_min le_rfl (by linarith)
    unfold overallRisk
    linarith
  · have h1 : efficiencyRisk e' ≤ efficiencyRisk e := by
      unfold efficiencyRisk
      exact max_le_max le_rfl (by linarith)
    unfold overallRisk
    linarith

/-- C6 witness: the monotonicity theorem applied at concrete inputs. -/
theorem c6_overall_risk_monotone_witness :
    (overallRisk 80 5 90 0 ≤ overallRisk 90 5 90 0) ∧
    (overallRisk 80 5 90 0 ≤ overallRisk 80 6 90 0) ∧
    (overallRisk 80 5 90 0 ≤ overallRisk 80 5 90 86400000) ∧
    (overallRisk 80 5 95 0 ≤ overallRisk 80 5 90 0) :=
  ⟨(c6_overall_risk_monotone 80 90 5 5 90 90 0 0).1 (by decide),
   (c6_overall_risk_monotone 80 80 5 6 90 90 0 0).2.1 (by decide),
   (c6_overall_risk_monotone 80 80 5 5 90 90 0 86400000).2.2.1 (by decide),
   (c6_overall_risk_monotone 80 80 5 5 90 95 0 0).2.2.2 (by decide)⟩

/- ===================== C8 ===================== -/

/-- C8 counterexample: starting from the initialized channel, the trace
`dispose`, then the platform-delivered `onclose` for the socket closed by
`dispose`, then the 5-second timer firing, performs another connect —
`connectCalls` rises from 1 to 2 after `dispose`, so the system does call
connect again after explicit teardown. -/
theorem c8_counterexample :
    (channelRun channelInit
        [ChannelEv.disposeCall, ChannelEv.socketClosed,
         ChannelEv.reconnectTimerFire]).connectCalls ≠
      (channelRun channelInit [ChannelEv.disposeCall]).connectCalls := by
  decide

/-- C8 amended: `dispose` does not cancel any pending reconnect — it
leaves `reconnectPending` exactly as it was — and because closing the
socket fires the `onclose` handler, which unconditionally schedules a
reconnect, the trace dispose → socket closed → timer fire always performs
one more connect, with the channel already disposed. -/
theorem c8_amended_dispose_does_not_cancel (s : ChannelState) :
    (disposeChannel s).reconnectPending = s.reconnectPending ∧
    (channelRun s [ChannelEv.disposeCall, ChannelEv.socketClosed,
        ChannelEv.reconnectTimerFire]).connectCalls = s.connectCalls + 1 ∧
    (channelRun s [ChannelEv.disposeCall, ChannelEv.socketClosed,
        ChannelEv.reconnectTimerFire]).disposed = true := by
  refine ⟨rfl, ?_, ?_⟩ <;>
    simp [channelRun, channelStep, disposeChannel, oncloseHandler,
      reconnectTimerFired]

/- ===================== C9 ===================== -/

/-- C9: an event whose `type` is neither `machineStatus` nor `alert`,
or a `machineStatus` event whose `machineId` matches no stored machine,
leaves the entire store unchanged (and, the handler being a total
function, never throws). -/
theorem c9_unknown_events_ignored (s : Store) (data : RealtimeData)
    (h : (data.type ≠ "machineStatus" ∧ data.type ≠ "alert") ∨
         (data.type = "machineStatus" ∧ findMachine s data.machineId = none)) :
    handleRealtimeData s data = s := by
  unfold handleRealtimeData
  rw [if_neg]
  simp only [Bool.and_eq_true, beq_iff_eq, List.any_eq_true, not_and, not_exists]
  rcases h with ⟨h1, _⟩ | ⟨_, h2⟩
  · intro ht
    exact absurd ht h1
  · intro _ m hm
    have := List.find?_eq_none.mp h2 m hm
    simpa using this

/-- C9 witness: the unknown-type event `bogusTypeEv` leaves the concrete
store `singleMachineStore` unchanged. -/
theorem c9_unknown_events_ignored_witness :
    handleRealtimeData singleMachineStore bogusTypeEv = singleMachineStore :=
  c9_unknown_events_ignored singleMachineStore bogusTypeEv
    (Or.inl ⟨by decide, by decide⟩)

/- ===================== C3 ===================== -/

theorem any_of_find?_eq_some {l : List Machine} {p : Machine → Bool} {m : Machine}
    (h : l.find? p = some m) : l.any p = true :=
  List.any_eq_true.mpr ⟨m, List.mem_of_find?_eq_some h, List.find?_some h⟩

theorem find?_map_update (l : List Machine) (i : String) (upd : Machine → Machine)
    (hupd : ∀ x, (upd x).id = x.id) (m : Machine)
    (hm : l.find? (fun x => x.id == i) = some m) :
    (l.map (fun x => if x.id == i then upd x else x)).find? (fun x => x.id == i)
      = some (upd m) := by
  induction l with
  | nil => simp at hm
  | cons a t ih =>
    cases ha : a.id == i with
    | true =>
      simp only [List.find?, ha, Option.some.injEq] at hm
      subst hm
      have hu : ((upd a).id == i) = true := by rw [hupd]; exact ha
      simp [List.find?, ha, hu]
    | false =>
      simp only [List.find?, ha] at hm
      simp only [List.map_cons, ha, Bool.false_eq_true, if_false, List.find?]
      exact ih hm

/-- C3 counterexample: machine `M1` starts with temperature 50; the event
`zeroTempEv` carries the metric field `temperature` present with value
`0`, yet after handling, the stored temperature is still 50 (JavaScript
`data.temperature || machine.temperature` treats the present value 0 as
absent), contradicting the claim that every present metric field is
overwritten. -/
theorem c3_counterexample :
    (findMachine (handleRealtimeData singleMachineStore
        { type := "machineStatus", machineId := "M1", status := "running",
          temperature := some 0, vibration := none, efficiency := none,
          message := "" }) "M1").map Machine.temperature = some 50 ∧
      (50 : ℚ) ≠ 0 := by
  constructor
  · decide
  · norm_num

/-- C3 amended: for a `machineStatus` event whose machine is present, the
handler overwrites `status` unconditionally, overwrites each metric field
that is present in the event with a non-zero value, and retains the
previous value of each metric field that is absent from the event or
present with value `0` (the JavaScript `||` treats 0 as missing). -/
theorem c3_amended_partial_update (s : Store) (data : RealtimeData) (m : Machine)
    (htype : data.type = "machineStatus")
    (hm : findMachine s data.machineId = some m) :
    ∃ mNew, findMachine (handleRealtimeData s data) data.machineId = some mNew ∧
      mNew.status = data.status ∧
      (∀ q : ℚ, data.temperature = some q → q ≠ 0 → mNew.temperature = q) ∧
      ((data.temperature = none ∨ data.temperature = some 0) →
        mNew.temperature = m.temperature) ∧
      (∀ q : ℚ, data.vibration = some q → q ≠ 0 → mNew.vibration = q) ∧
      ((data.vibration = none ∨ data.vibration = some 0) →
        mNew.vibration = m.vibration) ∧
      (∀ q : ℚ, data.efficiency = some q → q ≠ 0 → mNew.efficiency = q) ∧
      ((data.efficiency = none ∨ data.efficiency = some 0) →
        mNew.efficiency = m.efficiency) := by
  have hcond : (data.type == "machineStatus" &&
      s.machines.any (fun x => x.id == data.machineId)) = true := by
    rw [Bool.and_eq_true]
    exact ⟨beq_iff_eq.mpr htype, any_of_find?_eq_some hm⟩
  refine ⟨{ m with
            status := data.status
            temperature := jsOr data.temperature m.temperature
            vibration := jsOr data.vibration m.vibration
            efficiency := jsOr data.efficiency m.efficiency },
    ?_, rfl, ?_, ?_, ?_, ?_, ?_, ?_⟩
  · unfold handleRealtimeData
    rw [if_pos hcond]
    exact find?_map_update s.machines data.machineId
      (fun x => { x with
        status := data.status
        temperature := jsOr data.temperature x.temperature
        vibration := jsOr data.vibration x.vibration
        efficiency := jsOr data.efficiency x.efficiency })
      (fun x => rfl) m hm
  · intro q hq hq0
    show jsOr data.temperature m.temperature = q
    rw [hq]
    unfold jsOr
    simp [hq0]
  · intro hcase
    show jsOr data.temperature m.temperature = m.temperature
    rcases hcase with h | h <;> rw [h] <;> simp [jsOr]
  · intro q hq hq0
    show jsOr data.vibration m.vibration = q
    rw [hq]
    unfold jsOr
    simp [hq0]
  · intro hcase
    show jsOr data.vibration m.vibration = m.vibration
    rcases hcase with h | h <;> rw [h] <;> simp [jsOr]
  · intro q hq hq0
    show jsOr data.efficiency m.efficiency = q
    rw [hq]
    unfold jsOr
    simp [hq0]
  · intro hcase
    show jsOr data.efficiency m.efficiency = m.efficiency
    rcases hcase with h | h <;> rw [h] <;> simp [jsOr]

/-- C3 witness: applying a `machineStatus` event for `M1` carrying
`temperature = 70` (present, non-zero), no `vibration`, and
`efficiency = 0` (present but falsy): the stored machine ends with the
new status, temperature 70, and the previous vibration 2 and
efficiency 90. -/
theorem c3_amended_partial_update_witness :
    ∃ mNew, findMachine (handleRealtimeData singleMachineStore
        { type := "machineStatus", machineId := "M1", status := "maintenance",
          temperature := some 70, vibration := none, efficiency := some 0,
          message := "" }) "M1" = some mNew ∧
      mNew.status = "maintenance" ∧ mNew.temperature = 70 ∧
      mNew.vibration = 2 ∧ mNew.efficiency = 90 := by
  obtain ⟨mNew, h1, h2, h3, _, _, h6, _, h8⟩ :=
    c3_amended_partial_update singleMachineStore
      { type := "machineStatus", machineId := "M1", status := "maintenance",
        temperature := some 70, vibration := none, efficiency := some 0,
        message := "" }
      { id := "M1", name := "Machine 1", status := "running",
        temperature := 50, vibration := 2, efficiency := 90,
        lastMaintenance := 0 }
      rfl (by decide)
  exact ⟨mNew, h1, h2, h3 70 rfl (by norm_num), h6 (Or.inl rfl), h8 (Or.inr rfl)⟩

/- ===================== C4 ===================== -/

/-- A machine running far above the nominal temperature range. -/
def hotMachine : Machine :=
  { id := "M1", name := "Hot press", status := "running",
    temperature := 200, vibration := 0, efficiency := 85,
    lastMaintenance := 0 }

/-- Store holding only `hotMachine`. -/
def hotStore : Store := { machines := [hotMachine], productionLines := [] }

/-- C4 counterexample: at temperature 200 °C the component
`tempRisk = max(0, (T - 75) / 25)` evaluates to 5, outside [0, 1] (the
code clamps it from below only), and the overall risk returned by the
assessment for `hotMachine` is 5/4, also outside [0, 1]. -/
theorem c4_counterexample :
    tempRisk 200 = 5 ∧ ¬ tempRisk 200 ≤ 1 ∧
      (calculatePredictiveMaintenance hotStore "M1" 0).map
        RiskAssessment.riskScore = some (5 / 4) ∧
      ¬ (5 / 4 : ℚ) ≤ 1 := by
  have h1 : tempRisk 200 = 5 := by
    unfold tempRisk
    rw [max_eq_right] <;> norm_num
  have hfind : findMachine hotStore "M1" = some hotMachine := rfl
  refine ⟨h1, by rw [h1]; norm_num, ?_, by norm_num⟩
  simp only [calculatePredictiveMaintenance, hfind]
  norm_num [hotMachine, overallRisk, tempRisk, vibrationRisk, efficiencyRisk,
    timeRisk, max_def, min_def]

/-- C4 amended: each of the four risk components, and the overall risk,
lies in [0, 1] provided the inputs stay in the nominal ranges
(temperature ≤ 100 °C, vibration in [0, 10] Hz, efficiency ≥ 65 %, and
`now` not before the last maintenance); outside those ranges the code
clamps only one side, so components can leave [0, 1] (see the
counterexample). -/
theorem c4_amended_bounded_inputs (s : Store) (machineId : String) (now : ℚ)
    (m : Machine) (hm : findMachine s machineId = some m)
    (htemp : m.temperature ≤ 100) (hvib0 : 0 ≤ m.vibration)
    (hvib : m.vibration ≤ 10) (heff : 65 ≤ m.efficiency)
    (htime : m.lastMaintenance ≤ now) :
    (0 ≤ tempRisk m.temperature ∧ tempRisk m.temperature ≤ 1) ∧
    (0 ≤ vibrationRisk m.vibration ∧ vibrationRisk m.vibration ≤ 1) ∧
    (0 ≤ efficiencyRisk m.efficiency ∧ efficiencyRisk m.efficiency ≤ 1) ∧
    (0 ≤ timeRisk (now - m.lastMaintenance) ∧
      timeRisk (now - m.lastMaintenance) ≤ 1) ∧
    ∃ r, calculatePredictiveMaintenance s machineId now = some r ∧
      0 ≤ r.riskScore ∧ r.riskScore ≤ 1 := by
  have h1 : 0 ≤ tempRisk m.temperature := by
    unfold tempRisk
    exact le_max_left _ _
  have h2 : tempRisk m.temperature ≤ 1 := by
    unfold tempRisk
    exact max_le (by norm_num) (by linarith)
  have h3 : 0 ≤ vibrationRisk m.vibration := by
    unfold vibrationRisk
    linarith
  have h4 : vibrationRisk m.vibration ≤ 1 := by
    unfold vibrationRisk
    linarith
  have h5 : 0 ≤ efficiencyRisk m.efficiency := by
    unfold efficiencyRisk
    exact le_max_left _ _
  have h6 : efficiencyRisk m.efficiency ≤ 1 := by
    unfold efficiencyRisk
    exact max_le (by norm_num) (by linarith)
  have h7 : 0 ≤ timeRisk (now - m.lastMaintenance) := by
    unfold timeRisk
    exact le_min (by norm_num) (div_nonneg (by linarith) (by norm_num))
  have h8 : timeRisk (now - m.lastMaintenance) ≤ 1 := by
    unfold timeRisk
    exact min_le_left _ _
  have h9 : 0 ≤ overallRisk m.temperature m.vibration m.efficiency
      (now - m.lastMaintenance) := by
    unfold overallRisk
    linarith
  have h10 : overallRisk m.temperature m.vibration m.efficiency
      (now - m.lastMaintenance) ≤ 1 := by
    unfold overallRisk
    linarith
  refine ⟨⟨h1, h2⟩, ⟨h3, h4⟩, ⟨h5, h6⟩, ⟨h7, h8⟩, ?_⟩
  simp only [calculatePredictiveMaintenance, hm]
  exact ⟨_, rfl, h9, h10⟩

/-- A machine whose metrics all sit inside the nominal ranges. -/
def goodMachine : Machine :=
  { id := "M1", name := "Good mill", status := "running",
    temperature := 80, vibration := 5, efficiency := 90,
    lastMaintenance := 0 }

/-- Store holding only `goodMachine`. -/
def goodStore : Store := { machines := [goodMachine], productionLines := [] }

/-- C4 witness: the bounded-input theorem applied to `goodMachine`
one day (86400000 ms) after its last maintenance. -/
theorem c4_amended_bounded_inputs_witness :
    (0 ≤ tempRisk goodMachine.temperature ∧ tempRisk goodMachine.temperature ≤ 1) ∧
    (0 ≤ vibrationRisk goodMachine.vibration ∧
      vibrationRisk goodMachine.vibration ≤ 1) ∧
    (0 ≤ efficiencyRisk goodMachine.efficiency ∧
      efficiencyRisk goodMachine.efficiency ≤ 1) ∧
    (0 ≤ timeRisk (86400000 - goodMachine.lastMaintenance) ∧
      timeRisk (86400000 - goodMachine.lastMaintenance) ≤ 1) ∧
    ∃ r, calculatePredictiveMaintenance goodStore "M1" 86400000 = some r ∧
      0 ≤ r.riskScore ∧ r.riskScore ≤ 1 :=
  c4_amended_bounded_inputs goodStore "M1" 86400000 goodMachine rfl
    (by decide) (by decide) (by decide) (by decide) (by decide)

/- ===================== C5 ===================== -/

/-- A machine whose only non-zero risk factor is temperature 100 °C,
giving overall risk 1/4 and an exact day window of 10.5 days. -/
def warmMachine : Machine :=
  { id := "M1", name := "Warm press", status := "running",
    temperature := 100, vibration := 0, efficiency := 85,
    lastMaintenance := 0 }

/-- Store holding only `warmMachine`. -/
def warmStore : Store := { machines := [warmMachine], productionLines := [] }

/-- C5 counterexample: for `warmMachine` at `now = 0` the overall risk is
1/4, so the claimed day window `max(0, 14 - risk * 14)` is 10.5 — but the
returned `daysToMaintenance` is `Math.round(10.5) = 11`, not 10.5. -/
theorem c5_counterexample :
    (calculatePredictiveMaintenance warmStore "M1" 0).map
      RiskAssessment.riskScore = some (1 / 4) ∧
    (calculatePredictiveMaintenance warmStore "M1" 0).map
      RiskAssessment.daysToMaintenance = some 11 ∧
    ((11 : ℚ) ≠ max 0 (14 - (1 / 4) * 14)) := by
  have hfind : findMachine warmStore "M1" = some warmMachine := rfl
  refine ⟨?_, ?_, by rw [max_eq_right] <;> norm_num⟩
  · simp only [calculatePredictiveMaintenance, hfind]
    norm_num [warmMachine, overallRisk, tempRisk, vibrationRisk,
      efficiencyRisk, timeRisk, max_def, min_def]
  · simp only [calculatePredictiveMaintenance, hfind]
    norm_num [warmMachine, overallRisk, tempRisk, vibrationRisk,
      efficiencyRisk, timeRisk, jsRound, max_def, min_def]

/-- C5 amended: for every machine present in the store, the returned
`daysToMaintenance` is `Math.round(max(0, 14 - overallRisk * 14))` — the
rounded value, not the raw formula — while `predictedMaintenanceDate` is
`now` plus the unrounded day window converted to milliseconds. -/
theorem c5_amended_rounded_days (s : Store) (machineId : String) (now : ℚ)
    (m : Machine) (hm : findMachine s machineId = some m) :
    ∃ r, calculatePredictiveMaintenance s machineId now = some r ∧
      r.daysToMaintenance = jsRound (max 0 (14 -
        overallRisk m.temperature m.vibration m.efficiency
          (now - m.lastMaintenance) * 14)) ∧
      r.predictedMaintenanceDate = now + max 0 (14 -
        overallRisk m.temperature m.vibration m.efficiency
          (now - m.lastMaintenance) * 14) * (24 * 60 * 60 * 1000) := by
  simp only [calculatePredictiveMaintenance, hm]
  exact ⟨_, rfl, rfl, rfl⟩

/-- C5 witness: the amended theorem applied to `warmMachine` at
`now = 0`. -/
theorem c5_amended_rounded_days_witness :
    ∃ r, calculatePredictiveMaintenance warmStore "M1" 0 = some r ∧
      r.daysToMaintenance = jsRound (max 0 (14 -
        overallRisk warmMachine.temperature warmMachine.vibration
          warmMachine.efficiency (0 - warmMachine.lastMaintenance) * 14)) ∧
      r.predictedMaintenanceDate = 0 + max 0 (14 -
        overallRisk warmMachine.temperature warmMachine.vibration
          warmMachine.efficiency (0 - warmMachine.lastMaintenance) * 14) *
          (24 * 60 * 60 * 1000) :=
  c5_amended_rounded_days warmStore "M1" 0 warmMachine rfl

/- ===================== C7 ===================== -/

theorem lookup_map_replace_self (url resp : String) :
    ∀ entries : List (String × String), entries.any (fun p => p.1 == url) = true →
      (entries.map (fun p => if p.1 == url then (url, resp) else p)).lookup url
        = some resp := by
  intro entries
  induction entries with
  | nil => intro h; simp at h
  | cons a t ih =>
    obtain ⟨k, v⟩ := a
    intro h
    cases hk : k == url with
    | true =>
      have hk2 : k = url := beq_iff_eq.mp hk
      subst hk2
      simp [List.lookup_cons_self]
    | false =>
      have ht : t.any (fun p => p.1 == url) = true := by
        simpa [hk] using h
      have hq : (url == k) = false := by
        rw [beq_string_comm]
        exact hk
      simp only [List.map_cons, hk, Bool.false_eq_true, if_false, List.lookup_cons, hq]
      exact ih ht

theorem lookup_append_self (url resp : String) :
    ∀ entries : List (String × String), entries.any (fun p => p.1 == url) = false →
      (entries ++ [(url, resp)]).lookup url = some resp := by
  intro entries
  induction entries with
  | nil => simp
  | cons a t ih =>
    obtain ⟨k, v⟩ := a
    intro h
    have hk : (k == url) = false := by
      cases hk : k == url
      · rfl
      · simp [hk] at h
    have ht : t.any (fun p => p.1 == url) = false := by
      simpa [hk] using h
    have hq : (url == k) = false := by
      rw [beq_string_comm]
      exact hk
    simp only [List.cons_append, List.lookup_cons, hq]
    exact ih ht

theorem lookup_cachePutEntry_self (entries : List (String × String))
    (url resp : String) :
    (cachePutEntry entries url resp).lookup url = some resp := by
  unfold cachePutEntry
  by_cases h : entries.any (fun p => p.1 == url) = true
  · rw [if_pos h]
    exact lookup_map_replace_self url resp entries h
  · rw [if_neg h]
    refine lookup_append_self url resp entries ?_
    cases hb : entries.any (fun p => p.1 == url)
    · rfl
    · exact absurd hb h

theorem lookup_map_replace_other (url resp u : String)
    (hne : (u == url) = false) :
    ∀ entries : List (String × String),
      (entries.map (fun p => if p.1 == url then (url, resp) else p)).lookup u
        = entries.lookup u := by
  intro entries
  induction entries with
  | nil => rfl
  | cons a t ih =>
    obtain ⟨k, v⟩ := a
    by_cases hk : (k == url) = true
    · have hk2 : k = url := beq_iff_eq.mp hk
      subst hk2
      have h1 : (List.map (fun p => if p.1 == k then (k, resp) else p) ((k, v) :: t))
          = (k, resp) :: List.map (fun p => if p.1 == k then (k, resp) else p) t := by
        simp
      rw [h1]
      simp only [List.lookup_cons, hne]
      exact ih
    · have h1 : (List.map (fun p => if p.1 == url then (url, resp) else p) ((k, v) :: t))
          = (k, v) :: List.map (fun p => if p.1 == url then (url, resp) else p) t := by
        simp only [List.map_cons]
        rw [if_neg hk]
      rw [h1]
      simp only [List.lookup_cons]
      cases hu : u == k with
      | true => rfl
      | false => exact ih

theorem lookup_append_other (url resp u : String)
    (hne : (u == url) = false) :
    ∀ entries : List (String × String),
      (entries ++ [(url, resp)]).lookup u = entries.lookup u := by
  intro entries
  induction entries with
  | nil => simp only [List.nil_append, List.lookup_cons, hne, List.lookup_nil]
  | cons a t ih =>
    obtain ⟨k, v⟩ := a
    simp only [List.cons_append, List.lookup_cons]
    cases hu : u == k with
    | true => rfl
    | false => exact ih

theorem lookup_cachePutEntry_other (url resp u : String)
    (hne : (u == url) = false) (entries : List (String × String)) :
    (cachePutEntry entries url resp).lookup u = entries.lookup u := by
  unfold cachePutEntry
  by_cases h : entries.any (fun p => p.1 == url) = true
  · rw [if_pos h]
    exact lookup_map_replace_other url resp u hne entries
  · rw [if_neg h]
    exact lookup_append_other url resp u hne entries

theorem cachePut_holds_self (cs : CacheStorage) (name u resp : String) :
    ∀ c ∈ cachePut cs name u resp, c.1 = name → c.2.lookup u = some resp := by
  intro c hc hn
  unfold cachePut at hc
  obtain ⟨c0, hc0, heq⟩ := List.mem_map.mp hc
  cases h : c0.1 == name with
  | true =>
    rw [if_pos h] at heq
    subst heq
    exact lookup_cachePutEntry_self c0.2 u resp
  | false =>
    rw [if_neg (by simp [h])] at heq
    subst heq
    exact absurd (beq_iff_eq.mpr hn) (by simp [h])

theorem cachePut_preserves (cs : CacheStorage) (name u r url resp : String)
    (hne : (u == url) = false)
    (hq : ∀ c ∈ cs, c.1 = name → c.2.lookup u = some r) :
    ∀ c ∈ cachePut cs name url resp, c.1 = name → c.2.lookup u = some r := by
  intro c hc hn
  unfold cachePut at hc
  obtain ⟨c0, hc0, heq⟩ := List.mem_map.mp hc
  cases h : c0.1 == name with
  | true =>
    rw [if_pos h] at heq
    subst heq
    rw [lookup_cachePutEntry_other url resp u hne c0.2]
    exact hq c0 hc0 (beq_iff_eq.mp h)
  | false =>
    rw [if_neg (by simp [h])] at heq
    subst heq
    exact hq c0 hc0 hn

theorem cacheAddAll_preserves (name : String) (fetchResp : String → String)
    (u : String) :
    ∀ (urls : List String) (cs : CacheStorage),
      (∀ c ∈ cs, c.1 = name → c.2.lookup u = some (fetchResp u)) →
      ∀ c ∈ cacheAddAll cs name urls fetchResp, c.1 = name →
        c.2.lookup u = some (fetchResp u) := by
  intro urls
  induction urls with
  | nil => intro cs hq; exact hq
  | cons url rest ih =>
    intro cs hq
    apply ih
    cases hequ : u == url with
    | true =>
      have : u = url := beq_iff_eq.mp hequ
      subst this
      exact cachePut_holds_self cs name u (fetchResp u)
    | false =>
      exact cachePut_preserves cs name u (fetchResp u) url (fetchResp url) hequ hq

theorem cacheAddAll_establishes (name : String) (fetchResp : String → String)
    (u : String) :
    ∀ (urls : List String) (cs : CacheStorage), u ∈ urls →
      ∀ c ∈ cacheAddAll cs name urls fetchResp, c.1 = name →
        c.2.lookup u = some (fetchResp u) := by
  intro urls
  induction urls with
  | nil => intro cs h; simp at h
  | cons url rest ih =>
    intro cs hu
    cases hequ : u == url with
    | true =>
      have : u = url := beq_iff_eq.mp hequ
      subst this
      exact cacheAddAll_preserves name fetchResp u rest
        (cachePut cs name u (fetchResp u))
        (cachePut_holds_self cs name u (fetchResp u))
    | false =>
      have hur : u ∈ rest := by
        rcases List.mem_cons.mp hu with h | h
        · exact absurd (beq_iff_eq.mpr h) (by simp [hequ])
        · exact h
      exact ih (cachePut cs name url (fetchResp url)) hur

theorem cachePut_names (cs : CacheStorage) (name url resp : String) :
    (cachePut cs name url resp).map Prod.fst = cs.map Prod.fst := by
  unfold cachePut
  induction cs with
  | nil => rfl
  | cons c t ih =>
    simp only [List.map_cons] at *
    rw [ih]
    cases h : c.1 == name with
    | true => simp
    | false => simp [h]

theorem cacheAddAll_names (name : String) (fetchResp : String → String) :
    ∀ (urls : List String) (cs : CacheStorage),
      (cacheAddAll cs name urls fetchResp).map Prod.fst = cs.map Prod.fst := by
  intro urls
  induction urls with
  | nil => intro cs; rfl
  | cons url rest ih =>
    intro cs
    unfold cacheAddAll at *
    rw [List.foldl_cons, ih, cachePut_names]

theorem exists_cache_named_install (cs : CacheStorage)
    (fetchResp : String → String) :
    ∃ c ∈ installEvent cs fetchResp, c.1 = CACHE_NAME := by
  have h0 : ∃ c ∈ cachesOpen cs CACHE_NAME, c.1 = CACHE_NAME := by
    unfold cachesOpen
    by_cases h : cs.any (fun c => c.1 == CACHE_NAME) = true
    · rw [if_pos h]
      obtain ⟨c, hc, hcn⟩ := List.any_eq_true.mp h
      exact ⟨c, hc, beq_iff_eq.mp hcn⟩
    · rw [if_neg h]
      exact ⟨(CACHE_NAME, []), by simp, rfl⟩
  obtain ⟨c, hc, hcn⟩ := h0
  have h1 : CACHE_NAME ∈ (cachesOpen cs CACHE_NAME).map Prod.fst :=
    List.mem_map.mpr ⟨c, hc, hcn⟩
  have h2 : (installEvent cs fetchResp).map Prod.fst
      = (cachesOpen cs CACHE_NAME).map Prod.fst :=
    cacheAddAll_names CACHE_NAME fetchResp urlsToCache (cachesOpen cs CACHE_NAME)
  rw [← h2] at h1
  obtain ⟨c1, hc1, hcn1⟩ := List.mem_map.mp h1
  exact ⟨c1, hc1, hcn1⟩

theorem findSome?_lookup_filter (u r : String) :
    ∀ l : CacheStorage,
      (∀ c ∈ l, c.1 = CACHE_NAME → c.2.lookup u = some r) →
      (∃ c ∈ l, c.1 = CACHE_NAME) →
      (l.filter (fun c => c.1 == CACHE_NAME)).findSome?
        (fun c => c.2.lookup u) = some r := by
  intro l
  induction l with
  | nil =>
    intro _ hex
    simp at hex
  | cons a t ih =>
    intro hall hex
    cases ha : a.1 == CACHE_NAME with
    | true =>
      have hfil : List.filter (fun c => c.1 == CACHE_NAME) (a :: t)
          = a :: List.filter (fun c => c.1 == CACHE_NAME) t := by
        simp [List.filter_cons, ha]
      rw [hfil, List.findSome?_cons]
      have hl : a.2.lookup u = some r := hall a (by simp) (beq_iff_eq.mp ha)
      rw [hl]
    | false =>
      have hfil : List.filter (fun c => c.1 == CACHE_NAME) (a :: t)
          = List.filter (fun c => c.1 == CACHE_NAME) t := by
        simp [List.filter_cons, ha]
      rw [hfil]
      apply ih
      · intro c hc hcn
        exact hall c (List.mem_cons_of_mem a hc) hcn
      · obtain ⟨c, hc, hcn⟩ := hex
        rcases List.mem_cons.mp hc with h | h
        · subst h
          exact absurd (beq_iff_eq.mpr hcn) (by simp [ha])
        · exact ⟨c, h, hcn⟩

/-- C7: from any prior cache storage, running the `install` listener for
the current epoch followed by the `activate` listener leaves only caches
named `CACHE_NAME` (every cache of any other epoch is deleted, so no
prior-epoch entry remains retrievable), and every manifest resource is
retrievable from the surviving storage by a pure cache match, yielding
the response stored at install time without a further network fetch. -/
theorem c7_install_activate_epoch (cs : CacheStorage)
    (fetchResp : String → String) (u : String) (hu : u ∈ urlsToCache) :
    (∀ c ∈ activateEvent (installEvent cs fetchResp), c.1 = CACHE_NAME) ∧
    cachesMatch (activateEvent (installEvent cs fetchResp)) u
      = some (fetchResp u) := by
  constructor
  · intro c hc
    have h := List.mem_filter.mp hc
    exact beq_iff_eq.mp h.2
  · have hall : ∀ c ∈ installEvent cs fetchResp, c.1 = CACHE_NAME →
        c.2.lookup u = some (fetchResp u) :=
      cacheAddAll_establishes CACHE_NAME fetchResp u urlsToCache
        (cachesOpen cs CACHE_NAME) hu
    have hex := exists_cache_named_install cs fetchResp
    unfold activateEvent cachesMatch
    exact findSome?_lookup_filter u (fetchResp u) (installEvent cs fetchResp)
      hall hex

/-- A prior-epoch cache storage: one cache of epoch `smart-factory-v1.1`
holding a stale copy of the root document. -/
def staleStorage : CacheStorage :=
  [("smart-factory-v1.1", [("/", "stale home page")])]

/-- C7 witness: installing over `staleStorage` and activating leaves only
`CACHE_NAME` caches, and the manifest resource `/index.html` is served
from cache with the freshly fetched body. -/
theorem c7_install_activate_epoch_witness :
    (∀ c ∈ activateEvent (installEvent staleStorage (fun _ => "fresh body")),
      c.1 = CACHE_NAME) ∧
    cachesMatch (activateEvent (installEvent staleStorage (fun _ => "fresh body")))
      "/index.html" = some "fresh body" :=
  c7_install_activate_epoch staleStorage (fun _ => "fresh body") "/index.html"
    (by simp [urlsToCache])

/- ===================== C10 ===================== -/

theorem find?_map_const_self (m : Machine) :
    ∀ l : List Machine, l.any (fun x => x.id == m.id) = true →
      (l.map (fun x => if x.id == m.id then m else x)).find?
        (fun x => x.id == m.id) = some m := by
  intro l
  induction l with
  | nil => intro h; simp at h
  | cons a t ih =>
    intro h
    by_cases ha : (a.id == m.id) = true
    · have h1 : (a :: t).map (fun x => if x.id == m.id then m else x)
          = m :: t.map (fun x => if x.id == m.id then m else x) := by
        simp only [List.map_cons]
        rw [if_pos ha]
      rw [h1]
      simp [List.find?]
    · have haf : (a.id == m.id) = false := by
        cases hb : a.id == m.id
        · rfl
        · exact absurd hb ha
      have h1 : (a :: t).map (fun x => if x.id == m.id then m else x)
          = a :: t.map (fun x => if x.id == m.id then m else x) := by
        simp only [List.map_cons]
        rw [if_neg ha]
      rw [h1]
      have ht : t.any (fun x => x.id == m.id) = true := by
        simpa [haf] using h
      simp only [List.find?, haf]
      exact ih ht

theorem find?_append_self (m : Machine) :
    ∀ l : List Machine, l.any (fun x => x.id == m.id) = false →
      (l ++ [m]).find? (fun x => x.id == m.id) = some m := by
  intro l
  induction l with
  | nil => simp [List.find?]
  | cons a t ih =>
    intro h
    have haf : (a.id == m.id) = false := by
      cases hb : a.id == m.id
      · rfl
      · simp [hb] at h
    have ht : t.any (fun x => x.id == m.id) = false := by
      simpa [haf] using h
    simp only [List.cons_append, List.find?, haf]
    exact ih ht

theorem storeMachine_find_self (l : List Machine) (m : Machine) :
    (storeMachine l m).find? (fun x => x.id == m.id) = some m := by
  unfold storeMachine
  by_cases h : l.any (fun x => x.id == m.id) = true
  · rw [if_pos h]
    exact find?_map_const_self m l h
  · rw [if_neg h]
    refine find?_append_self m l ?_
    cases hb : l.any (fun x => x.id == m.id)
    · rfl
    · exact absurd hb h

theorem storeMachine_find_other (l : List Machine) (m : Machine) (i : String)
    (hne : (m.id == i) = false) :
    (storeMachine l m).find? (fun x => x.id == i)
      = l.find? (fun x => x.id == i) := by
  unfold storeMachine
  by_cases h : l.any (fun x => x.id == m.id) = true
  · rw [if_pos h]
    clear h
    induction l with
    | nil => rfl
    | cons a t ih =>
      by_cases ha : (a.id == m.id) = true
      · have h1 : (a :: t).map (fun x => if x.id == m.id then m else x)
            = m :: t.map (fun x => if x.id == m.id then m else x) := by
          simp only [List.map_cons]
          rw [if_pos ha]
        rw [h1]
        have haf : (a.id == i) = false := by
          rw [beq_iff_eq.mp ha]
          exact hne
        simp only [List.find?, hne, haf]
        exact ih
      · have h1 : (a :: t).map (fun x => if x.id == m.id then m else x)
            = a :: t.map (fun x => if x.id == m.id then m else x) := by
          simp only [List.map_cons]
          rw [if_neg ha]
        rw [h1]
        simp only [List.find?]
        cases hu : a.id == i with
        | true => rfl
        | false => exact ih
  · rw [if_neg h]
    clear h
    induction l with
    | nil => simp [List.find?, hne]
    | cons a t ih =>
      simp only [List.cons_append, List.find?]
      cases hu : a.id == i with
      | true => rfl
      | false => exact ih

theorem foldl_store_configs_preserves (g : MachineConfig → Machine) (i : String) :
    ∀ (cfgs : List MachineConfig) (l : List Machine),
      (∀ c ∈ cfgs, ((g c).id == i) = false) →
      (cfgs.foldl (fun acc c => storeMachine acc (g c)) l).find?
        (fun x => x.id == i) = l.find? (fun x => x.id == i) := by
  intro cfgs
  induction cfgs with
  | nil => intro l _; rfl
  | cons c0 rest ih =>
    intro l hall
    rw [List.foldl_cons]
    rw [ih (storeMachine l (g c0)) (fun c hc => hall c (List.mem_cons_of_mem c0 hc))]
    exact storeMachine_find_other l (g c0) i (hall c0 (by simp))

theorem foldl_store_configs (g : MachineConfig → Machine)
    (hg : ∀ cfg, (g cfg).id = cfg.id) :
    ∀ (cfgs : List MachineConfig) (l : List Machine),
      (cfgs.map MachineConfig.id).Nodup →
      ∀ cfg ∈ cfgs,
        (cfgs.foldl (fun acc c => storeMachine acc (g c)) l).find?
          (fun x => x.id == cfg.id) = some (g cfg) := by
  intro cfgs
  induction cfgs with
  | nil =>
    intro l _ cfg h
    simp at h
  | cons c0 rest ih =>
    intro l hnd cfg hcfg
    have hnd2 : c0.id ∉ rest.map MachineConfig.id ∧
        (rest.map MachineConfig.id).Nodup := by
      simpa [List.nodup_cons] using hnd
    rw [List.foldl_cons]
    rcases List.mem_cons.mp hcfg with rfl | hmem
    · rw [foldl_store_configs_preserves g cfg.id rest (storeMachine l (g cfg)) ?_]
      · have h := storeMachine_find_self l (g cfg)
        rw [hg cfg] at h
        exact h
      · intro c hc
        have hcid : (g c).id = c.id := hg c
        rw [hcid]
        have hne : ¬ c.id = cfg.id := by
          intro he
          exact hnd2.1 (he ▸ List.mem_map_of_mem MachineConfig.id hc)
        cases hb : c.id == cfg.id
        · rfl
        · exact absurd (beq_iff_eq.mp hb) hne
    · exact ih (storeMachine l (g c0)) hnd2.2 cfg hmem

/-- C10: at production-line construction (with pairwise distinct member
ids, as in every configured line), when the aggregated line status is
`stopped` every member machine is stored with status `stopped` regardless
of its configured status, and when the aggregated status is not `stopped`
each member machine is stored with exactly its configured status. -/
theorem c10_construction_cascade (s : Store) (lineId lineName : String)
    (machinesConfig : List MachineConfig) (zPosition : ℚ) (lineColor : String)
    (draws : String → ℚ × ℚ × ℚ × ℚ)
    (hnd : (machinesConfig.map MachineConfig.id).Nodup) :
    ∀ cfg ∈ machinesConfig,
      ∃ m, findMachine (createProductionLine s lineId lineName machinesConfig
          zPosition lineColor draws) cfg.id = some m ∧
        (calculateLineStatus machinesConfig = "stopped" → m.status = "stopped") ∧
        (calculateLineStatus machinesConfig ≠ "stopped" →
          m.status = cfg.status) := by
  intro cfg hcfg
  refine ⟨machineOfConfig
      (if calculateLineStatus machinesConfig == "stopped" then "stopped"
        else cfg.status) draws cfg, ?_, ?_, ?_⟩
  · show (createProductionLine s lineId lineName machinesConfig zPosition
        lineColor draws).machines.find? (fun x => x.id == cfg.id) = _
    exact foldl_store_configs
      (fun c => machineOfConfig
        (if calculateLineStatus machinesConfig == "stopped" then "stopped"
          else c.status) draws c)
      (fun c => rfl) machinesConfig s.machines hnd cfg hcfg
  · intro hs
    have hb : (calculateLineStatus machinesConfig == "stopped") = true :=
      beq_iff_eq.mpr hs
    simp [machineOfConfig, hb]
  · intro hs
    have hb : (calculateLineStatus machinesConfig == "stopped") = false := by
      cases hb : calculateLineStatus machinesConfig == "stopped"
      · rfl
      · exact absurd (beq_iff_eq.mp hb) hs
    simp [machineOfConfig, hb]

/-- Member configuration of the demo line `B` (src/sw.js lines 436-441),
shortened to its first two machines: `B1` is configured `running`, `B2`
is configured `offline`, so the aggregated line status is `stopped`. -/
def lineBConfigs : List MachineConfig :=
  [{ id := "B1", name := "CNC Mill B1", type := "cnc", status := "running" },
   { id := "B2", name := "Lathe B2", type := "lathe", status := "offline" }]

/-- C10 witness: in line `B` (aggregated status `stopped` because `B2` is
offline), member `B1` — individually configured `running` — is stored
with status `stopped`. -/
theorem c10_construction_cascade_witness :
    ∃ m, findMachine (createProductionLine emptyStore "B" "Electronics"
        lineBConfigs 0 "orange" demoDraws) "B1" = some m ∧
      (calculateLineStatus lineBConfigs = "stopped" → m.status = "stopped") ∧
      (calculateLineStatus lineBConfigs ≠ "stopped" → m.status = "running") :=
  c10_construction_cascade emptyStore "B" "Electronics" lineBConfigs 0 "orange"
    demoDraws (by decide)
    { id := "B1", name := "CNC Mill B1", type := "cnc", status := "running" }
    (by decide)
